import Mathlib

/-!
Verification development for the client-side view orchestrator
(`src/js/view-manager.js`): a shallow embedding of the component
loading/caching pipeline, the view-activation state machine, the
activation dispatch, and the delegated sidebar click handler, together
with theorems settling the specified properties.

Modelling conventions:
- The DOM is modelled as the ordered list of the root container child
  elements; each element carries its `id` attribute (the empty string
  when unset) and whether its class list holds the `active` marker.
- `document.getElementById` returns the first element with a given
  nonempty id, `none` for the empty string.
- The browser environment is a record `Env`: `fetch` maps a component
  name to `some markup` (a 2xx response with that body) or `none`
  (network failure or non-ok status, i.e. the `fetch`/`response.ok`
  path throws), and `parse` maps markup to its first parsed element
  (`none` when parsing yields no element), carrying the id
  attribute of that element (possibly empty) and whether the markup already carries
  the `active` class.
- Asynchrony: the event loop is single threaded and each observable
  step of the code is synchronous between `await` points; the
  `loadComponent().then(...)` recovery inside `showView` is modelled by
  running the continuation after the load, which is the only
  interleaving a single caller can observe.
- Side effects on collaborators (test manager, state manager, review
  manager) and log output are recorded in an effect trace.
-/

/-- A mounted element in the root container: its id attribute (empty
string when unset) and whether its class list carries `active`. -/
structure Elem where
  id : String
  active : Bool
deriving Repr, DecidableEq

/-- Result of parsing markup: the id attribute of the first parsed
element (empty when absent) and whether it already carries the `active` class. -/
structure Parsed where
  id : String
  active : Bool
deriving Repr, DecidableEq

/-- The optional test collaborator: which of its three optional methods
exist (`updateQuestionDisplay`, `calculateResults`, `initializeReview`). -/
structure TestManager where
  hasUpdateQuestionDisplay : Bool
  hasCalculateResults : Bool
  hasInitReview : Bool
deriving Repr, DecidableEq

/-- The window-scoped `window.app` object, when defined: whether its
`stateManager` and `questionManager` fields are non-null. -/
structure WindowApp where
  stateManager : Bool
  questionManager : Bool
deriving Repr, DecidableEq

/-- Browser environment: network fetch and markup parsing, plus the
window-scoped fallback object used by `initializeReviewManager`. -/
structure Env where
  fetch : String → Option String
  parse : String → Option Parsed
  windowApp : Option WindowApp

/-- Orchestrator state: `currentView`, the fragment cache, the container
children, the injected collaborators (presence for state/question, the
method record for test), and whether the review manager handle exists. -/
structure VMState where
  currentView : String
  cache : List (String × String)
  dom : List Elem
  stateManager : Bool
  questionManager : Bool
  testManager : Option TestManager
  reviewManager : Bool
deriving Repr, DecidableEq

/-- Observable effects: calls into collaborators, network fetches,
console error reports, and invocations of `loadComponent` and of the
activation dispatcher `onViewActivated`. -/
inductive Effect where
  | loadCall (name : String)
  | fetchCall (name : String)
  | consoleError (site : String)
  | dispatchCall (view : String)
  | updateQuestionDisplay
  | calculateResults
  | tmInitReview
  | newReviewManager
  | rmInitCall
  | setReviewCurrentQuestion (i : Int)
  | loadReviewQuestion (i : Int)
  | closeSidebar
deriving Repr, DecidableEq

/-- The fixed view set (`this.views` in the constructor). -/
def views : List String := ["landing", "test", "result", "review-answers"]

/-- The DOM identifiers of the four view elements. -/
def viewDomIds : List String :=
  ["landing-view", "test-view", "result-view", "review-answers-view"]

/-- `document.getElementById`: first element with the given nonempty id. -/
def getById (dom : List Elem) (i : String) : Option Elem :=
  if i = "" then none else dom.find? (fun e => e.id == i)

/-- `classList.remove` on the first element with the given id (the one
`getElementById` returns); identity when no element matches. -/
def deactivateFirst (i : String) : List Elem → List Elem
  | [] => []
  | e :: rest =>
      if e.id = i then { e with active := false } :: rest
      else e :: deactivateFirst i rest

/-- `classList.add` on the first element with the given id. -/
def activateFirst (i : String) : List Elem → List Elem
  | [] => []
  | e :: rest =>
      if e.id = i then { e with active := true } :: rest
      else e :: activateFirst i rest

/-- The removal loop of `showView`: for each view, remove `active` from
its element when present. -/
def deactivateAll (dom : List Elem) : List Elem :=
  (views.map (fun v => v ++ "-view")).foldl (fun d i => deactivateFirst i d) dom

/-- Replace the first element carrying the same id by `el`. -/
def replaceFirst (el : Elem) : List Elem → List Elem
  | [] => []
  | e :: rest =>
      if e.id = el.id then el :: rest
      else e :: replaceFirst el rest

/-- `existingComponent.replaceWith(componentElement)` when an element
with the same id exists, `container.appendChild` otherwise. -/
def replaceOrAppend (dom : List Elem) (el : Elem) : List Elem :=
  match getById dom el.id with
  | some _ => replaceFirst el dom
  | none => dom ++ [el]

/-- Prefix test on character lists. -/
def charListStartsWith : List Char → List Char → Bool
  | [], _ => true
  | _ :: _, [] => false
  | a :: as, b :: bs => a == b && charListStartsWith as bs

/-- Infix test on character lists. -/
def charListSubstr (p : List Char) : List Char → Bool
  | [] => p.isEmpty
  | b :: bs => charListStartsWith p (b :: bs) || charListSubstr p bs

/-- JavaScript `componentName.includes("view")`. Note that this is true
for every bootstrap component name, including `review-panel` (whose
substring `review` contains `view`). -/
def containsView (s : String) : Bool :=
  charListSubstr "view".toList s.toList

/-- Association-list read of the fragment cache. -/
def cacheGet : List (String × String) → String → Option String
  | [], _ => none
  | (k, v) :: rest, n => if k = n then some v else cacheGet rest n

/-- The JS truthiness test `if (this.componentCache[componentName])`:
a hit only for a present, nonempty cached string. -/
def cacheHit (c : List (String × String)) (name : String) : Option String :=
  match cacheGet c name with
  | some h => if h = "" then none else some h
  | none => none

/-- The markup of the placeholder view for a component name.
Modelled from the spec: `createFallbackView` is referenced by
`loadComponent` but absent from the available source; the spec only
fixes its contract (a minimal placeholder whose exact content is an
implementation detail). -/
def fallbackHtml (name : String) : String :=
  "<div>fallback " ++ name ++ "</div>"

/-- Modelled from the spec: `createFallbackView` is referenced by
`loadComponent` but absent from the available source. Per the spec
(sections 4.2 and 9) it always yields a mountable element identified by
the component name, mounted into the container (replacing any element
with that id), and returns the placeholder markup; the placeholder does
not carry the `active` marker. -/
def createFallbackView (s : VMState) (name : String) : String × VMState :=
  (fallbackHtml name, { s with dom := replaceOrAppend s.dom (Elem.mk name false) })

/-- Result of `loadComponent`: the resolved markup or the propagated
error, the new orchestrator state, and the effect trace. -/
structure LoadResult where
  result : Except String String
  s : VMState
  tr : List Effect

/-- The resolved markup of a load, `none` when the load propagated an
error (the rejected-promise case). -/
def exOk : Except String String → Option String
  | Except.ok h => some h
  | Except.error _ => none

/-- `loadComponent(componentName)`. Cache hits return at once; a cache
miss fetches, and on success caches the markup and mounts the parsed
element (assigning the component name as id when a view-like component
lacks one, replacing an existing element with the same id, appending
otherwise). On fetch failure, view-like names are recovered through the
fallback view; other names propagate the error. The one-time component
initialization hook only binds event listeners and is modelled
separately (`sidebarClick`). -/
def loadComponent (env : Env) (s : VMState) (name : String) : LoadResult :=
  match cacheHit s.cache name with
  | some h => ⟨Except.ok h, s, [Effect.loadCall name]⟩
  | none =>
    match env.fetch name with
    | none =>
      if containsView name then
        let p := createFallbackView s name
        ⟨Except.ok p.1, p.2,
          [Effect.loadCall name, Effect.fetchCall name,
           Effect.consoleError ("Error loading component " ++ name)]⟩
      else
        ⟨Except.error name, s,
          [Effect.loadCall name, Effect.fetchCall name,
           Effect.consoleError ("Error loading component " ++ name)]⟩
    | some html =>
      let s2 := { s with cache := (name, html) :: s.cache }
      if containsView name || name = "review-panel" then
        match env.parse html with
        | none => ⟨Except.ok html, s2, [Effect.loadCall name, Effect.fetchCall name]⟩
        | some pe =>
          let finalId := if containsView name && pe.id = "" then name else pe.id
          let el : Elem := Elem.mk finalId pe.active
          ⟨Except.ok html, { s2 with dom := replaceOrAppend s2.dom el },
            [Effect.loadCall name, Effect.fetchCall name]⟩
      else
        ⟨Except.ok html, s2, [Effect.loadCall name, Effect.fetchCall name]⟩

/-- `initializeReviewManager(element)` (named `initReviewManager` here).
Resolves the state and question collaborators, falling back to the
window-scoped `window.app` fields; accessing them throws when
`window.app` is undefined, and the surrounding try/catch turns that
into a logged error. With both collaborators present it constructs the
review manager handle on first need and calls
`handle.initialize(results, questions, element)`; with either absent it
returns silently. -/
def initReviewManager (env : Env) (s : VMState) : VMState × List Effect :=
  match (if s.stateManager then some true else
           match env.windowApp with
           | none => none
           | some app => some app.stateManager) with
  | none => (s, [Effect.consoleError "Error initializing review manager"])
  | some sm =>
    match (if s.questionManager then some true else
             match env.windowApp with
             | none => none
             | some app => some app.questionManager) with
    | none => (s, [Effect.consoleError "Error initializing review manager"])
    | some qm =>
      if sm && qm then
        if s.reviewManager then (s, [Effect.rmInitCall])
        else ({ s with reviewManager := true },
              [Effect.newReviewManager, Effect.rmInitCall])
      else (s, [])

/-- `onViewActivated(viewName, element)`: the activation dispatcher.
Emits a `dispatchCall` marker for the invocation itself, then the
per-view collaborator effect: the optional-chained test manager methods
for `test` and `result`, and for `review-answers` the test manager method
review initialization when that method exists, the core review
review manager initialization otherwise. Other views (in particular
`landing`) dispatch nothing. -/
def onViewActivated (env : Env) (s : VMState) (v : String) : VMState × List Effect :=
  if v = "test" then
    (s, Effect.dispatchCall v ::
      (match s.testManager with
       | some tm => if tm.hasUpdateQuestionDisplay then [Effect.updateQuestionDisplay] else []
       | none => []))
  else if v = "result" then
    (s, Effect.dispatchCall v ::
      (match s.testManager with
       | some tm => if tm.hasCalculateResults then [Effect.calculateResults] else []
       | none => []))
  else if v = "review-answers" then
    match s.testManager with
    | some tm =>
      if tm.hasInitReview then (s, [Effect.dispatchCall v, Effect.tmInitReview])
      else
        let p := initReviewManager env s
        (p.1, Effect.dispatchCall v :: p.2)
    | none =>
      let p := initReviewManager env s
      (p.1, Effect.dispatchCall v :: p.2)
  else
    (s, [Effect.dispatchCall v])

/-- Result of `showView`: the final state, the effect trace, and whether
the target view was found (directly or after the recovery load) and
activated. -/
structure ShowResult where
  s : VMState
  tr : List Effect
  activated : Bool

/-- `showView(viewName)`: remove the `active` marker from every view
element, then locate the target element. When found, mark it active,
record it as the current view, and invoke the dispatcher. When missing,
log the miss and issue exactly one `loadComponent` recovery; when the
recovered element is found the activation proceeds as in the direct
case, otherwise the call is abandoned with no state change (a rejected
recovery load only logs). -/
def showView (env : Env) (s : VMState) (v : String) : ShowResult :=
  let tid := v ++ "-view"
  let d1 := deactivateAll s.dom
  let s1 := { s with dom := d1 }
  match getById d1 tid with
  | some _ =>
    let s2 := { s1 with dom := activateFirst tid d1, currentView := v }
    let p := onViewActivated env s2 v
    ⟨p.1, p.2, true⟩
  | none =>
    let lr := loadComponent env s1 tid
    match lr.result with
    | Except.ok _ =>
      match getById lr.s.dom tid with
      | some _ =>
        let s2 := { lr.s with dom := activateFirst tid lr.s.dom, currentView := v }
        let p := onViewActivated env s2 v
        ⟨p.1, Effect.consoleError ("View " ++ v ++ " not found in DOM") :: lr.tr ++ p.2, true⟩
      | none =>
        ⟨lr.s, Effect.consoleError ("View " ++ v ++ " not found in DOM") :: lr.tr, false⟩
    | Except.error _ =>
      ⟨lr.s,
        Effect.consoleError ("View " ++ v ++ " not found in DOM") :: lr.tr ++
          [Effect.consoleError ("Failed to reload component " ++ tid)],
        false⟩

/-- Result of the bootstrap batch load. -/
structure BatchResult where
  result : Except String Unit
  s : VMState
  tr : List Effect

/-- `loadAllComponents()`: the bootstrap batch load of the five
components. The five fetches are issued concurrently on the
single-threaded event loop and joined by `Promise.all`; since the five
names are distinct keys the interleaving is equivalent to running them
in sequence, which is how it is modelled. The batch fails when any
single load rejects. -/
def loadAllComponents (env : Env) (s : VMState) : BatchResult :=
  let r1 := loadComponent env s "landing-view"
  let r2 := loadComponent env r1.s "test-view"
  let r3 := loadComponent env r2.s "result-view"
  let r4 := loadComponent env r3.s "review-answers-view"
  let r5 := loadComponent env r4.s "review-panel"
  let tr := r1.tr ++ r2.tr ++ r3.tr ++ r4.tr ++ r5.tr
  match r1.result, r2.result, r3.result, r4.result, r5.result with
  | Except.ok _, Except.ok _, Except.ok _, Except.ok _, Except.ok _ =>
    ⟨Except.ok (), r5.s, tr⟩
  | _, _, _, _, _ => ⟨Except.error "batch", r5.s, tr⟩

/-- `init()`: run the bootstrap batch load, then activate the landing
view; a batch failure is caught, logged, and stops initialization
without activating any view. -/
def init (env : Env) (s : VMState) : VMState × List Effect :=
  let br := loadAllComponents env s
  match br.result with
  | Except.ok _ =>
    let sr := showView env br.s "landing"
    (sr.s, br.tr ++ sr.tr)
  | Except.error _ =>
    (br.s, br.tr ++ [Effect.consoleError "ViewManager initialization error"])

/-- A DOM subtree for the delegated sidebar handler: an element with a
tag name and its ordered element children. -/
inductive Node where
  | node (tag : String) (children : List Node)

/-- The tag of a node. -/
def Node.tagOf : Node → String
  | Node.node t _ => t

/-- The element children of a node. -/
def Node.childrenOf : Node → List Node
  | Node.node _ c => c

/-- Walk the path from `n` toward the click target, remembering the
deepest node tagged `li` seen so far (as its path from the list root).
This computes what `closest` with selector `li` resolves to inside the
list subtree: the nearest self-or-ancestor list item of the target. -/
def deepestLi (n : Node) (path : List Nat) (cur : List Nat)
    (best : Option (List Nat)) : Option (List Nat) :=
  let best1 := if n.tagOf = "li" then some cur else best
  match path with
  | [] => best1
  | i :: rest =>
    match n.childrenOf.get? i with
    | none => best1
    | some c => deepestLi c rest (cur ++ [i]) best1

/-- The `closest` lookup confined to the sidebar list subtree:
the path (from the list root) of the nearest self-or-ancestor `li` of
the click target, `none` when no `li` lies on that chain. -/
def closestLi (root : Node) (path : List Nat) : Option (List Nat) :=
  deepestLi root path [] none

/-- The delegated click handler bound on `#reviewSidebarList` in
`initializeReviewAnswersView`. `sm` and `rm` say whether
`this.stateManager` and `this.reviewManager` are non-null at click
time; `root` is the sidebar list subtree, `path` the click target
path in it, and `hasOuterLi` whether an ancestor of the list itself is
an `li` (then `closest` escapes the list and still finds a list item).
Returns the effects performed and whether the handler threw: the
resolved item position among the direct children of the list is its index
when the item is a direct child and `-1` otherwise (`indexOf` on a
non-child); `Number.isNaN(idx)` is always false, so the calls proceed.
`setReviewCurrentQuestion` throws when the state manager is null;
`loadReviewQuestion` is guarded by a null check, but `closeSidebar` is
not and throws when the review manager is null. -/
def sidebarClick (sm rm : Bool) (root : Node) (path : List Nat)
    (hasOuterLi : Bool) : List Effect × Bool :=
  let btn : Option (Option (List Nat)) :=
    match closestLi root path with
    | some p => some (some p)
    | none => if hasOuterLi then some none else none
  match btn with
  | none => ([], false)
  | some pOpt =>
    let idx : Int :=
      match pOpt with
      | some [k] => (k : Int)
      | _ => -1
    if sm then
      if rm then
        ([Effect.setReviewCurrentQuestion idx, Effect.loadReviewQuestion idx,
          Effect.closeSidebar], false)
      else
        ([Effect.setReviewCurrentQuestion idx], true)
    else
      ([], true)

/-- At most one container element per nonempty id: the invariant the
mounter maintains (a later mount of the same identifier replaces). -/
def UniqueIds (d : List Elem) : Prop :=
  (d.map Elem.id).Pairwise (fun a b => a = "" ∨ a ≠ b)

/-- No element with id `j` carries the `active` marker. -/
def Inactive (j : String) (d : List Elem) : Prop :=
  ∀ e ∈ d, e.id = j → e.active = false

/-- Recognizes a `loadComponent` invocation in a trace. -/
def isLoadCall : Effect → Bool
  | Effect.loadCall _ => true
  | _ => false

/-- Recognizes a network fetch in a trace. -/
def isFetchCall : Effect → Bool
  | Effect.fetchCall _ => true
  | _ => false

/-- Recognizes a collaborator side effect in a trace (everything except
fetches, log output and the structural load/dispatch markers). -/
def isCollabFx : Effect → Bool
  | Effect.loadCall _ => false
  | Effect.fetchCall _ => false
  | Effect.consoleError _ => false
  | Effect.dispatchCall _ => false
  | _ => true

/-- Whether the batch load resolved. -/
def batchOk (b : BatchResult) : Bool :=
  match b.result with
  | Except.ok _ => true
  | Except.error _ => false

/-- An offline environment: every fetch fails, parsing yields no
element, and the window-scoped app object is undefined. -/
def envOffline : Env := ⟨fun _ => none, fun _ => none, none⟩

/-- An environment whose fetches all succeed with a fixed fragment that
parses to an id-less, inactive element. -/
def envHtmlOk : Env :=
  ⟨fun _ => some "<div></div>", fun _ => some ⟨"", false⟩, none⟩

/-- An environment where only the review-panel fetch fails. -/
def envPanelFail : Env :=
  ⟨fun n => if n = "review-panel" then none else some "<div></div>",
   fun _ => some ⟨"", false⟩, none⟩

/-- An environment whose fetches return a fragment that parses to an
element with id test-view already carrying the active class. -/
def envActiveFrag : Env :=
  ⟨fun _ => some "<div id=test-view class=active></div>",
   fun _ => some ⟨"test-view", true⟩, none⟩

/-- An environment where the window-scoped app object exists but its
state manager is null. -/
def envAppOnly : Env := ⟨fun _ => none, fun _ => none, some ⟨false, true⟩⟩

/-- A fresh orchestrator state: nothing cached, nothing mounted, state
and question collaborators injected, no test manager, no handle. -/
def stateEmpty : VMState := ⟨"landing", [], [], true, true, none, false⟩

/-- A state with the landing view mounted and active and the test view
mounted and inactive. -/
def stateMounted : VMState :=
  ⟨"landing", [], [Elem.mk "landing-view" true, Elem.mk "test-view" false],
   true, true, none, false⟩

/-- A state where the result-view fragment is cached but its element was
never mounted (for instance because parsing yielded no element). -/
def stateCachedUnmounted : VMState :=
  ⟨"landing", [("result-view", "x")], [Elem.mk "landing-view" true],
   true, true, none, false⟩

/-- A state whose test collaborator exposes all three optional methods. -/
def stateWithTM : VMState :=
  ⟨"landing", [], [], true, true, some ⟨true, true, true⟩, false⟩

/-- A state with no injected state collaborator. -/
def stateNoSM : VMState := ⟨"landing", [], [], false, true, none, false⟩

/-- A sidebar list with a nested list: the item at position 0 contains
an inner list with its own list item. -/
def listNested : Node :=
  Node.node "ul" [Node.node "li" [Node.node "ul" [Node.node "li" []]]]

/-- A sidebar list with two plain items. -/
def listTwoItems : Node := Node.node "ul" [Node.node "li" [], Node.node "li" []]

theorem deactivateFirst_map_id (i : String) (d : List Elem) :
    (deactivateFirst i d).map Elem.id = d.map Elem.id := by
  induction d with
  | nil => rfl
  | cons e rest ih =>
    by_cases h : e.id = i <;> simp [deactivateFirst, h, ih]

theorem activateFirst_map_id (i : String) (d : List Elem) :
    (activateFirst i d).map Elem.id = d.map Elem.id := by
  induction d with
  | nil => rfl
  | cons e rest ih =>
    by_cases h : e.id = i <;> simp [activateFirst, h, ih]

theorem replaceFirst_map_id (el : Elem) (d : List Elem) :
    (replaceFirst el d).map Elem.id = d.map Elem.id := by
  induction d with
  | nil => rfl
  | cons e rest ih =>
    by_cases h : e.id = el.id <;> simp [replaceFirst, h, ih]

theorem mem_deactivateFirst {x : Elem} {i : String} {d : List Elem}
    (hx : x ∈ deactivateFirst i d) :
    x ∈ d ∨ (x.active = false ∧ ∃ y ∈ d, x.id = y.id) := by
  induction d with
  | nil => simp [deactivateFirst] at hx
  | cons e rest ih =>
    by_cases h : e.id = i
    · simp [deactivateFirst, h] at hx
      rcases hx with hx | hx
      · subst hx
        right
        exact ⟨rfl, e, by simp, by simp [h]⟩
      · left; simp [hx]
    · simp [deactivateFirst, h] at hx
      rcases hx with hx | hx
      · left; simp [hx]
      · rcases ih hx with h1 | ⟨h2, y, hy, hxy⟩
        · left; simp [h1]
        · right; exact ⟨h2, y, by simp [hy], hxy⟩

theorem mem_activateFirst {x : Elem} {i : String} {d : List Elem}
    (hx : x ∈ activateFirst i d) :
    x ∈ d ∨ (x.active = true ∧ x.id = i) := by
  induction d with
  | nil => simp [activateFirst] at hx
  | cons e rest ih =>
    by_cases h : e.id = i
    · simp [activateFirst, h] at hx
      rcases hx with hx | hx
      · subst hx; right; exact ⟨rfl, rfl⟩
      · left; simp [hx]
    · simp [activateFirst, h] at hx
      rcases hx with hx | hx
      · left; simp [hx]
      · rcases ih hx with h1 | h2
        · left; simp [h1]
        · right; exact h2

theorem mem_replaceFirst {x : Elem} {el : Elem} {d : List Elem}
    (hx : x ∈ replaceFirst el d) : x ∈ d ∨ x = el := by
  induction d with
  | nil => simp [replaceFirst] at hx
  | cons e rest ih =>
    by_cases h : e.id = el.id
    · simp [replaceFirst, h] at hx
      rcases hx with hx | hx
      · right; exact hx
      · left; simp [hx]
    · simp [replaceFirst, h] at hx
      rcases hx with hx | hx
      · left; simp [hx]
      · rcases ih hx with h1 | h2
        · left; simp [h1]
        · right; exact h2

theorem mem_replaceOrAppend {x : Elem} {el : Elem} {d : List Elem}
    (hx : x ∈ replaceOrAppend d el) : x ∈ d ∨ x = el := by
  unfold replaceOrAppend at hx
  cases h : getById d el.id with
  | some e => rw [h] at hx; exact mem_replaceFirst hx
  | none =>
    rw [h] at hx
    simp at hx
    exact hx

theorem uniqueIds_of_map_eq {d1 d2 : List Elem}
    (h : d1.map Elem.id = d2.map Elem.id) (hu : UniqueIds d1) : UniqueIds d2 := by
  unfold UniqueIds at hu ⊢
  rwa [← h]

theorem getById_eq_some {d : List Elem} {i : String} {e : Elem}
    (h : getById d i = some e) : e.id = i ∧ e ∈ d := by
  unfold getById at h
  by_cases hi : i = ""
  · simp [hi] at h
  · rw [if_neg hi] at h
    have h1 := List.find?_some h
    have h2 := List.mem_of_find?_eq_some h
    exact ⟨by simpa using h1, h2⟩

theorem getById_none_congr {d1 d2 : List Elem} {i : String}
    (hm : d1.map Elem.id = d2.map Elem.id)
    (h : getById d1 i = none) : getById d2 i = none := by
  unfold getById at h ⊢
  by_cases hi : i = ""
  · simp [hi]
  · rw [if_neg hi] at h ⊢
    rw [List.find?_eq_none] at h ⊢
    intro e he
    have : e.id ∈ d2.map Elem.id := List.mem_map_of_mem Elem.id he
    rw [← hm] at this
    rcases List.mem_map.mp this with ⟨y, hy, hid⟩
    have := h y hy
    simp at this ⊢
    rw [← hid]
    exact this

theorem getById_some_congr {d1 d2 : List Elem} {i : String} {e : Elem}
    (hm : d1.map Elem.id = d2.map Elem.id)
    (h : getById d1 i = some e) : ∃ e2, getById d2 i = some e2 := by
  cases h2 : getById d2 i with
  | some x => exact ⟨x, rfl⟩
  | none =>
    have := getById_none_congr hm.symm h2
    rw [this] at h
    exact absurd h (by simp)

theorem inactive_deactivateFirst {j i : String} {d : List Elem}
    (h : Inactive j d) : Inactive j (deactivateFirst i d) := by
  intro e he hid
  rcases mem_deactivateFirst he with h1 | ⟨h2, _⟩
  · exact h e h1 hid
  · exact h2

theorem inactive_activateFirst {j i : String} {d : List Elem}
    (hne : j ≠ i) (h : Inactive j d) : Inactive j (activateFirst i d) := by
  intro e he hid
  rcases mem_activateFirst he with h1 | ⟨_, h2⟩
  · exact h e h1 hid
  · exact absurd (hid ▸ h2) hne

theorem inactive_replaceOrAppend {j : String} {el : Elem} {d : List Elem}
    (hel : el.active = false ∨ el.id ≠ j) (h : Inactive j d) :
    Inactive j (replaceOrAppend d el) := by
  intro e he hid
  rcases mem_replaceOrAppend he with h1 | h1
  · exact h e h1 hid
  · subst h1
    rcases hel with h2 | h2
    · exact h2
    · exact absurd hid h2

theorem deactivateFirst_inactive {i : String} {d : List Elem}
    (hi : i ≠ "") (hu : UniqueIds d) : Inactive i (deactivateFirst i d) := by
  induction d with
  | nil => intro e he; simp [deactivateFirst] at he
  | cons a rest ih =>
    unfold UniqueIds at hu
    rw [List.map_cons, List.pairwise_cons] at hu
    obtain ⟨hhead, htail⟩ := hu
    by_cases h : a.id = i
    · intro e he hid
      simp [deactivateFirst, h] at he
      rcases he with he | he
      · simp [he]
      · have : a.id = "" ∨ a.id ≠ e.id :=
          hhead e.id (List.mem_map_of_mem Elem.id he)
        rcases this with h1 | h1
        · exact absurd (h1.symm.trans h) (Ne.symm hi)
        · exact absurd (h.trans hid.symm) h1
    · intro e he hid
      simp [deactivateFirst, h] at he
      rcases he with he | he
      · exact absurd (he ▸ hid) h
      · exact ih htail e he hid

theorem activateFirst_active {i : String} {d : List Elem}
    (hi : i ≠ "") (hu : UniqueIds d) :
    ∀ x ∈ activateFirst i d, x.id = i → x.active = true := by
  induction d with
  | nil => intro x hx; simp [activateFirst] at hx
  | cons a rest ih =>
    unfold UniqueIds at hu
    rw [List.map_cons, List.pairwise_cons] at hu
    obtain ⟨hhead, htail⟩ := hu
    by_cases h : a.id = i
    · intro x hx hid
      simp [activateFirst, h] at hx
      rcases hx with hx | hx
      · simp [hx]
      · have : a.id = "" ∨ a.id ≠ x.id :=
          hhead x.id (List.mem_map_of_mem Elem.id hx)
        rcases this with h1 | h1
        · exact absurd (h1.symm.trans h) (Ne.symm hi)
        · exact absurd (h.trans hid.symm) h1
    · intro x hx hid
      simp [activateFirst, h] at hx
      rcases hx with hx | hx
      · exact absurd (hx ▸ hid) h
      · exact ih htail x hx hid

theorem activateFirst_exists {i : String} {d : List Elem} {e : Elem}
    (he : e ∈ d) (hid : e.id = i) :
    ∃ x ∈ activateFirst i d, x.id = i ∧ x.active = true := by
  induction d with
  | nil => simp at he
  | cons a rest ih =>
    by_cases h : a.id = i
    · refine ⟨{ a with active := true }, ?_, h, rfl⟩
      simp [activateFirst, h]
    · rcases List.mem_cons.mp he with h1 | h1
      · exact absurd (h1 ▸ hid) h
      · rcases ih h1 with ⟨x, hx, hxi, hxa⟩
        exact ⟨x, by simp [activateFirst, h, hx], hxi, hxa⟩

theorem countP_ext {p q : Elem → Bool} {d : List Elem}
    (h : ∀ x ∈ d, p x = q x) : d.countP p = d.countP q := by
  induction d with
  | nil => rfl
  | cons a rest ih =>
    rw [List.countP_cons, List.countP_cons,
      ih (fun x hx => h x (by simp [hx])), h a (by simp)]

theorem countP_id_one {i : String} {d : List Elem} {e : Elem}
    (hi : i ≠ "") (hu : UniqueIds d) (he : e ∈ d) (hid : e.id = i) :
    d.countP (fun x => x.id == i) = 1 := by
  induction d with
  | nil => simp at he
  | cons a rest ih =>
    unfold UniqueIds at hu
    rw [List.map_cons, List.pairwise_cons] at hu
    obtain ⟨hhead, htail⟩ := hu
    rw [List.countP_cons]
    by_cases h : a.id = i
    · have hz : rest.countP (fun x => x.id == i) = 0 := by
        rw [List.countP_eq_zero]
        intro x hx
        have : a.id = "" ∨ a.id ≠ x.id :=
          hhead x.id (List.mem_map_of_mem Elem.id hx)
        rcases this with h1 | h1
        · exact absurd (h1.symm.trans h) (Ne.symm hi)
        · simp
          intro hxx
          exact h1 (h.trans hxx.symm)
      simp [hz, h]
    · rcases List.mem_cons.mp he with h1 | h1
      · exact absurd (h1 ▸ hid) h
      · rw [ih htail h1]
        simp [h]

theorem getById_replaceFirst_self {el : Elem} {d : List Elem} {e : Elem}
    (hne : el.id ≠ "") (h : getById d el.id = some e) :
    getById (replaceFirst el d) el.id = some el := by
  unfold getById at h ⊢
  rw [if_neg hne] at h ⊢
  induction d with
  | nil => simp at h
  | cons a rest ih =>
    by_cases ha : a.id = el.id
    · simp [replaceFirst, ha]
    · rw [List.find?_cons_of_neg _ (by simp [ha])] at h
      simp only [replaceFirst, if_neg ha]
      rw [List.find?_cons_of_neg _ (by simp [ha])]
      exact ih h

theorem getById_replaceOrAppend_self {el : Elem} {d : List Elem}
    (hne : el.id ≠ "") :
    getById (replaceOrAppend d el) el.id = some el := by
  unfold replaceOrAppend
  cases h : getById d el.id with
  | some e => exact getById_replaceFirst_self hne h
  | none =>
    unfold getById at h ⊢
    rw [if_neg hne] at h ⊢
    rw [List.find?_eq_none] at h
    induction d with
    | nil => simp
    | cons a rest ih =>
      rw [List.cons_append, List.find?_cons_of_neg _ (by simpa using h a (by simp))]
      exact ih (fun e he => h e (by simp [he]))

theorem find?_replaceFirst_other {el : Elem} {d : List Elem} {i : String}
    (hne : el.id ≠ i) :
    (replaceFirst el d).find? (fun e => e.id == i) = d.find? (fun e => e.id == i) := by
  induction d with
  | nil => rfl
  | cons a rest ih =>
    by_cases ha : a.id = el.id
    · simp only [replaceFirst, if_pos ha]
      rw [List.find?_cons_of_neg _ (by simpa using hne),
        List.find?_cons_of_neg _ (by simp [ha ▸ hne])]
    · simp only [replaceFirst, if_neg ha]
      by_cases hai : a.id = i
      · rw [List.find?_cons_of_pos _ (by simpa using hai),
          List.find?_cons_of_pos _ (by simpa using hai)]
      · rw [List.find?_cons_of_neg _ (by simpa using hai),
          List.find?_cons_of_neg _ (by simpa using hai)]
        exact ih

theorem find?_append_single_other {el : Elem} {d : List Elem} {i : String}
    (hne : el.id ≠ i) :
    (d ++ [el]).find? (fun e => e.id == i) = d.find? (fun e => e.id == i) := by
  induction d with
  | nil =>
    have hb : (el.id == i) = false := by simpa using hne
    simp [List.find?, hb]
  | cons a rest ih =>
    by_cases hai : a.id = i
    · rw [List.cons_append, List.find?_cons_of_pos _ (by simpa using hai),
        List.find?_cons_of_pos _ (by simpa using hai)]
    · rw [List.cons_append, List.find?_cons_of_neg _ (by simpa using hai),
        List.find?_cons_of_neg _ (by simpa using hai)]
      exact ih

theorem getById_replaceOrAppend_other {el : Elem} {d : List Elem} {i : String}
    (hne : el.id ≠ i) :
    getById (replaceOrAppend d el) i = getById d i := by
  unfold replaceOrAppend
  cases h : getById d el.id with
  | some e =>
    unfold getById
    by_cases hi : i = ""
    · simp [hi]
    · rw [if_neg hi, if_neg hi, find?_replaceFirst_other hne]
  | none =>
    unfold getById
    by_cases hi : i = ""
    · simp [hi]
    · rw [if_neg hi, if_neg hi, find?_append_single_other hne]

theorem uniqueIds_replaceOrAppend {el : Elem} {d : List Elem}
    (hu : UniqueIds d) : UniqueIds (replaceOrAppend d el) := by
  unfold replaceOrAppend
  cases h : getById d el.id with
  | some e => exact uniqueIds_of_map_eq (replaceFirst_map_id el d).symm hu
  | none =>
    unfold UniqueIds at hu ⊢
    rw [List.map_append, List.pairwise_append]
    refine ⟨hu, by simp, ?_⟩
    intro a ha b hb
    simp at hb
    subst hb
    by_cases hya : a = ""
    · exact Or.inl hya
    · right
      intro hcon
      rcases List.mem_map.mp ha with ⟨y, hy, hyid⟩
      unfold getById at h
      by_cases hel : el.id = ""
      · exact hya (hcon.trans hel)
      · rw [if_neg hel, List.find?_eq_none] at h
        exact (by simpa [hyid, hcon] using h y hy)

theorem uniqueIds_deactivateFirst {i : String} {d : List Elem}
    (hu : UniqueIds d) : UniqueIds (deactivateFirst i d) :=
  uniqueIds_of_map_eq (deactivateFirst_map_id i d).symm hu

theorem uniqueIds_activateFirst {i : String} {d : List Elem}
    (hu : UniqueIds d) : UniqueIds (activateFirst i d) :=
  uniqueIds_of_map_eq (activateFirst_map_id i d).symm hu

theorem deactivateAll_eq (d : List Elem) :
    deactivateAll d =
      deactivateFirst "review-answers-view"
        (deactivateFirst "result-view"
          (deactivateFirst "test-view" (deactivateFirst "landing-view" d))) := rfl

theorem deactivateAll_map_id (d : List Elem) :
    (deactivateAll d).map Elem.id = d.map Elem.id := by
  rw [deactivateAll_eq, deactivateFirst_map_id, deactivateFirst_map_id,
    deactivateFirst_map_id, deactivateFirst_map_id]

theorem uniqueIds_deactivateAll {d : List Elem} (hu : UniqueIds d) :
    UniqueIds (deactivateAll d) :=
  uniqueIds_of_map_eq (deactivateAll_map_id d).symm hu

theorem deactivateAll_inactive {d : List Elem} (hu : UniqueIds d) :
    ∀ j ∈ viewDomIds, Inactive j (deactivateAll d) := by
  intro j hj
  have hu1 : UniqueIds (deactivateFirst "landing-view" d) := uniqueIds_deactivateFirst hu
  have hu2 : UniqueIds (deactivateFirst "test-view" (deactivateFirst "landing-view" d)) :=
    uniqueIds_deactivateFirst hu1
  have hu3 : UniqueIds (deactivateFirst "result-view"
      (deactivateFirst "test-view" (deactivateFirst "landing-view" d))) :=
    uniqueIds_deactivateFirst hu2
  rw [deactivateAll_eq]
  have e1 : ("landing-view" : String) ≠ "" := by decide
  have e2 : ("test-view" : String) ≠ "" := by decide
  have e3 : ("result-view" : String) ≠ "" := by decide
  have e4 : ("review-answers-view" : String) ≠ "" := by decide
  simp only [viewDomIds, List.mem_cons, List.not_mem_nil, or_false] at hj
  rcases hj with hj | hj | hj | hj <;> subst hj
  · exact inactive_deactivateFirst (inactive_deactivateFirst
      (inactive_deactivateFirst (deactivateFirst_inactive e1 hu)))
  · exact inactive_deactivateFirst (inactive_deactivateFirst
      (deactivateFirst_inactive e2 hu1))
  · exact inactive_deactivateFirst (deactivateFirst_inactive e3 hu2)
  · exact deactivateFirst_inactive e4 hu3
theorem loadComponent_hit {env : Env} {s : VMState} {n h : String}
    (hc : cacheHit s.cache n = some h) :
    loadComponent env s n = ⟨Except.ok h, s, [Effect.loadCall n]⟩ := by
  unfold loadComponent
  rw [hc]

theorem loadComponent_fail_view {env : Env} {s : VMState} {n : String}
    (hc : cacheHit s.cache n = none) (hf : env.fetch n = none)
    (hv : containsView n = true) :
    loadComponent env s n =
      ⟨Except.ok (fallbackHtml n),
        { s with dom := replaceOrAppend s.dom (Elem.mk n false) },
        [Effect.loadCall n, Effect.fetchCall n,
         Effect.consoleError ("Error loading component " ++ n)]⟩ := by
  unfold loadComponent createFallbackView
  rw [hc, hf]
  simp [hv]

theorem loadComponent_fail_nonview {env : Env} {s : VMState} {n : String}
    (hc : cacheHit s.cache n = none) (hf : env.fetch n = none)
    (hv : containsView n = false) :
    loadComponent env s n =
      ⟨Except.error n, s,
        [Effect.loadCall n, Effect.fetchCall n,
         Effect.consoleError ("Error loading component " ++ n)]⟩ := by
  unfold loadComponent
  rw [hc, hf]
  simp [hv]

theorem loadComponent_nomount {env : Env} {s : VMState} {n html : String}
    (hc : cacheHit s.cache n = none) (hf : env.fetch n = some html)
    (hv : (containsView n || decide (n = "review-panel")) = false) :
    loadComponent env s n =
      ⟨Except.ok html, { s with cache := (n, html) :: s.cache },
        [Effect.loadCall n, Effect.fetchCall n]⟩ := by
  unfold loadComponent
  rw [hc, hf]
  simp [hv]

theorem loadComponent_parsefail {env : Env} {s : VMState} {n html : String}
    (hc : cacheHit s.cache n = none) (hf : env.fetch n = some html)
    (hv : (containsView n || decide (n = "review-panel")) = true)
    (hp : env.parse html = none) :
    loadComponent env s n =
      ⟨Except.ok html, { s with cache := (n, html) :: s.cache },
        [Effect.loadCall n, Effect.fetchCall n]⟩ := by
  unfold loadComponent
  rw [hc, hf]
  simp [hv, hp]

theorem loadComponent_mount {env : Env} {s : VMState} {n html : String} {pe : Parsed}
    (hc : cacheHit s.cache n = none) (hf : env.fetch n = some html)
    (hv : (containsView n || decide (n = "review-panel")) = true)
    (hp : env.parse html = some pe) :
    loadComponent env s n =
      ⟨Except.ok html,
        { s with cache := (n, html) :: s.cache,
                 dom := replaceOrAppend s.dom
                   (Elem.mk (if (containsView n && decide (pe.id = "")) = true then n else pe.id)
                     pe.active) },
        [Effect.loadCall n, Effect.fetchCall n]⟩ := by
  unfold loadComponent
  rw [hc, hf]
  simp [hv, hp]

theorem loadComponent_preserves (env : Env) (s : VMState) (n : String) :
    (loadComponent env s n).s.currentView = s.currentView ∧
    (loadComponent env s n).s.stateManager = s.stateManager ∧
    (loadComponent env s n).s.questionManager = s.questionManager ∧
    (loadComponent env s n).s.testManager = s.testManager ∧
    (loadComponent env s n).s.reviewManager = s.reviewManager := by
  cases hc : cacheHit s.cache n with
  | some h => rw [loadComponent_hit hc]; exact ⟨rfl, rfl, rfl, rfl, rfl⟩
  | none =>
    cases hf : env.fetch n with
    | none =>
      cases hv : containsView n with
      | true => rw [loadComponent_fail_view hc hf hv]; exact ⟨rfl, rfl, rfl, rfl, rfl⟩
      | false => rw [loadComponent_fail_nonview hc hf hv]; exact ⟨rfl, rfl, rfl, rfl, rfl⟩
    | some html =>
      cases hv : (containsView n || decide (n = "review-panel")) with
      | false => rw [loadComponent_nomount hc hf hv]; exact ⟨rfl, rfl, rfl, rfl, rfl⟩
      | true =>
        cases hp : env.parse html with
        | none => rw [loadComponent_parsefail hc hf hv hp]; exact ⟨rfl, rfl, rfl, rfl, rfl⟩
        | some pe => rw [loadComponent_mount hc hf hv hp]; exact ⟨rfl, rfl, rfl, rfl, rfl⟩

theorem loadComponent_uniqueIds {env : Env} {s : VMState} {n : String}
    (hu : UniqueIds s.dom) : UniqueIds (loadComponent env s n).s.dom := by
  cases hc : cacheHit s.cache n with
  | some h => rw [loadComponent_hit hc]; exact hu
  | none =>
    cases hf : env.fetch n with
    | none =>
      cases hv : containsView n with
      | true => rw [loadComponent_fail_view hc hf hv]; exact uniqueIds_replaceOrAppend hu
      | false => rw [loadComponent_fail_nonview hc hf hv]; exact hu
    | some html =>
      cases hv : (containsView n || decide (n = "review-panel")) with
      | false => rw [loadComponent_nomount hc hf hv]; exact hu
      | true =>
        cases hp : env.parse html with
        | none => rw [loadComponent_parsefail hc hf hv hp]; exact hu
        | some pe => rw [loadComponent_mount hc hf hv hp]; exact uniqueIds_replaceOrAppend hu

theorem loadComponent_tr_one_load (env : Env) (s : VMState) (n : String) :
    (loadComponent env s n).tr.countP isLoadCall = 1 := by
  cases hc : cacheHit s.cache n with
  | some h => rw [loadComponent_hit hc]; rfl
  | none =>
    cases hf : env.fetch n with
    | none =>
      cases hv : containsView n with
      | true => rw [loadComponent_fail_view hc hf hv]; rfl
      | false => rw [loadComponent_fail_nonview hc hf hv]; rfl
    | some html =>
      cases hv : (containsView n || decide (n = "review-panel")) with
      | false => rw [loadComponent_nomount hc hf hv]; rfl
      | true =>
        cases hp : env.parse html with
        | none => rw [loadComponent_parsefail hc hf hv hp]; rfl
        | some pe => rw [loadComponent_mount hc hf hv hp]; rfl

theorem loadComponent_tr_no_dispatch (env : Env) (s : VMState) (n w : String) :
    Effect.dispatchCall w ∉ (loadComponent env s n).tr := by
  cases hc : cacheHit s.cache n with
  | some h => rw [loadComponent_hit hc]; simp
  | none =>
    cases hf : env.fetch n with
    | none =>
      cases hv : containsView n with
      | true => rw [loadComponent_fail_view hc hf hv]; simp
      | false => rw [loadComponent_fail_nonview hc hf hv]; simp
    | some html =>
      cases hv : (containsView n || decide (n = "review-panel")) with
      | false => rw [loadComponent_nomount hc hf hv]; simp
      | true =>
        cases hp : env.parse html with
        | none => rw [loadComponent_parsefail hc hf hv hp]; simp
        | some pe => rw [loadComponent_mount hc hf hv hp]; simp

theorem loadComponent_ok_of_containsView {env : Env} {s : VMState} {n : String}
    (hn : containsView n = true) :
    ∃ h, (loadComponent env s n).result = Except.ok h := by
  cases hc : cacheHit s.cache n with
  | some h => rw [loadComponent_hit hc]; exact ⟨h, rfl⟩
  | none =>
    cases hf : env.fetch n with
    | none => rw [loadComponent_fail_view hc hf hn]; exact ⟨_, rfl⟩
    | some html =>
      cases hv : (containsView n || decide (n = "review-panel")) with
      | false => rw [hn] at hv; simp at hv
      | true =>
        cases hp : env.parse html with
        | none => rw [loadComponent_parsefail hc hf hv hp]; exact ⟨_, rfl⟩
        | some pe => rw [loadComponent_mount hc hf hv hp]; exact ⟨_, rfl⟩

theorem loadComponent_recover {env : Env} {s : VMState} {n i : String} {e : Elem}
    (hb : getById s.dom i = none)
    (ha : getById (loadComponent env s n).s.dom i = some e) :
    ∀ j, j ≠ i → Inactive j s.dom → Inactive j (loadComponent env s n).s.dom := by
  intro j hj hIj
  cases hc : cacheHit s.cache n with
  | some h =>
    rw [loadComponent_hit hc] at ha ⊢
    rw [hb] at ha
    exact absurd ha (by simp)
  | none =>
    cases hf : env.fetch n with
    | none =>
      cases hv : containsView n with
      | true =>
        rw [loadComponent_fail_view hc hf hv] at ha ⊢
        exact inactive_replaceOrAppend (Or.inl rfl) hIj
      | false =>
        rw [loadComponent_fail_nonview hc hf hv] at ha ⊢
        rw [hb] at ha
        exact absurd ha (by simp)
    | some html =>
      cases hv : (containsView n || decide (n = "review-panel")) with
      | false =>
        rw [loadComponent_nomount hc hf hv] at ha ⊢
        rw [hb] at ha
        exact absurd ha (by simp)
      | true =>
        cases hp : env.parse html with
        | none =>
          rw [loadComponent_parsefail hc hf hv hp] at ha ⊢
          rw [hb] at ha
          exact absurd ha (by simp)
        | some pe =>
          rw [loadComponent_mount hc hf hv hp] at ha ⊢
          by_cases hid :
              (Elem.mk (if (containsView n && decide (pe.id = "")) = true then n else pe.id)
                pe.active).id = i
          · exact inactive_replaceOrAppend (Or.inr (by rw [hid]; exact Ne.symm hj)) hIj
          · rw [getById_replaceOrAppend_other hid] at ha
            rw [hb] at ha
            exact absurd ha (by simp)

theorem loadComponent_inactive_of_parse {env : Env} {s : VMState} {n j : String}
    (hpe : ∀ h pe, env.parse h = some pe → pe.active = false)
    (hIj : Inactive j s.dom) : Inactive j (loadComponent env s n).s.dom := by
  cases hc : cacheHit s.cache n with
  | some h => rw [loadComponent_hit hc]; exact hIj
  | none =>
    cases hf : env.fetch n with
    | none =>
      cases hv : containsView n with
      | true =>
        rw [loadComponent_fail_view hc hf hv]
        exact inactive_replaceOrAppend (Or.inl rfl) hIj
      | false => rw [loadComponent_fail_nonview hc hf hv]; exact hIj
    | some html =>
      cases hv : (containsView n || decide (n = "review-panel")) with
      | false => rw [loadComponent_nomount hc hf hv]; exact hIj
      | true =>
        cases hp : env.parse html with
        | none => rw [loadComponent_parsefail hc hf hv hp]; exact hIj
        | some pe =>
          rw [loadComponent_mount hc hf hv hp]
          exact inactive_replaceOrAppend (Or.inl (hpe html pe hp)) hIj
theorem initReviewManager_preserves (env : Env) (s : VMState) :
    (initReviewManager env s).1.dom = s.dom ∧
    (initReviewManager env s).1.currentView = s.currentView := by
  unfold initReviewManager
  repeat' split
  all_goals simp

theorem onViewActivated_preserves (env : Env) (s : VMState) (v : String) :
    (onViewActivated env s v).1.dom = s.dom ∧
    (onViewActivated env s v).1.currentView = s.currentView := by
  unfold onViewActivated
  have h := initReviewManager_preserves env s
  repeat' split
  all_goals simp [h.1, h.2]
theorem showView_eq_hit {env : Env} {s : VMState} {v : String} {e : Elem}
    (h : getById (deactivateAll s.dom) (v ++ "-view") = some e) :
    showView env s v =
      ⟨(onViewActivated env
          { s with dom := activateFirst (v ++ "-view") (deactivateAll s.dom),
                   currentView := v } v).1,
       (onViewActivated env
          { s with dom := activateFirst (v ++ "-view") (deactivateAll s.dom),
                   currentView := v } v).2,
       true⟩ := by
  unfold showView
  simp only [h]

theorem showView_eq_miss_found {env : Env} {s : VMState} {v : String} {h0 : String} {e : Elem}
    (h : getById (deactivateAll s.dom) (v ++ "-view") = none)
    (hok : (loadComponent env { s with dom := deactivateAll s.dom } (v ++ "-view")).result =
      Except.ok h0)
    (he : getById (loadComponent env { s with dom := deactivateAll s.dom } (v ++ "-view")).s.dom
      (v ++ "-view") = some e) :
    showView env s v =
      ⟨(onViewActivated env
          { (loadComponent env { s with dom := deactivateAll s.dom } (v ++ "-view")).s with
              dom := activateFirst (v ++ "-view")
                (loadComponent env { s with dom := deactivateAll s.dom } (v ++ "-view")).s.dom,
              currentView := v } v).1,
       Effect.consoleError ("View " ++ v ++ " not found in DOM") ::
         (loadComponent env { s with dom := deactivateAll s.dom } (v ++ "-view")).tr ++
         (onViewActivated env
          { (loadComponent env { s with dom := deactivateAll s.dom } (v ++ "-view")).s with
              dom := activateFirst (v ++ "-view")
                (loadComponent env { s with dom := deactivateAll s.dom } (v ++ "-view")).s.dom,
              currentView := v } v).2,
       true⟩ := by
  unfold showView
  simp only [h, hok, he]

theorem showView_eq_miss_lost {env : Env} {s : VMState} {v : String} {h0 : String}
    (h : getById (deactivateAll s.dom) (v ++ "-view") = none)
    (hok : (loadComponent env { s with dom := deactivateAll s.dom } (v ++ "-view")).result =
      Except.ok h0)
    (he : getById (loadComponent env { s with dom := deactivateAll s.dom } (v ++ "-view")).s.dom
      (v ++ "-view") = none) :
    showView env s v =
      ⟨(loadComponent env { s with dom := deactivateAll s.dom } (v ++ "-view")).s,
       Effect.consoleError ("View " ++ v ++ " not found in DOM") ::
         (loadComponent env { s with dom := deactivateAll s.dom } (v ++ "-view")).tr,
       false⟩ := by
  unfold showView
  simp only [h, hok, he]

theorem showView_eq_miss_err {env : Env} {s : VMState} {v : String} {e0 : String}
    (h : getById (deactivateAll s.dom) (v ++ "-view") = none)
    (herr : (loadComponent env { s with dom := deactivateAll s.dom } (v ++ "-view")).result =
      Except.error e0) :
    showView env s v =
      ⟨(loadComponent env { s with dom := deactivateAll s.dom } (v ++ "-view")).s,
       Effect.consoleError ("View " ++ v ++ " not found in DOM") ::
         (loadComponent env { s with dom := deactivateAll s.dom } (v ++ "-view")).tr ++
         [Effect.consoleError ("Failed to reload component " ++ (v ++ "-view"))],
       false⟩ := by
  unfold showView
  simp only [h, herr]
theorem activate_exclusive {d : List Elem} {tid : String} {e : Elem}
    (hmem : tid ∈ viewDomIds) (hne : tid ≠ "")
    (hu : UniqueIds d) (hIn : ∀ j ∈ viewDomIds, j ≠ tid → Inactive j d)
    (hb : getById d tid = some e) :
    (activateFirst tid d).countP (fun x => decide (x.id ∈ viewDomIds) && x.active) = 1 ∧
    ∀ x ∈ activateFirst tid d, x.id ∈ viewDomIds → x.active = true → x.id = tid := by
  obtain ⟨heid, hemem⟩ := getById_eq_some hb
  have hact := activateFirst_active hne hu (d := d)
  have hpres : ∀ j ∈ viewDomIds, j ≠ tid → Inactive j (activateFirst tid d) :=
    fun j hj hjne => inactive_activateFirst hjne (hIn j hj hjne)
  have hxonly : ∀ x ∈ activateFirst tid d, x.id ∈ viewDomIds → x.active = true → x.id = tid := by
    intro x hx hxv hxa
    by_contra hxne
    have := hpres x.id hxv hxne x hx rfl
    rw [hxa] at this
    exact Bool.true_eq_false.mp this
  refine ⟨?_, hxonly⟩
  have hcongr : ∀ x ∈ activateFirst tid d,
      (decide (x.id ∈ viewDomIds) && x.active) = (x.id == tid) := by
    intro x hx
    by_cases hxi : x.id = tid
    · simp [hxi, hmem, hact x hx hxi]
    · by_cases hxv : x.id ∈ viewDomIds
      · simp [hxv, hxi, hpres x.id hxv hxi x hx rfl]
      · simp [hxv, hxi]
  rw [countP_ext hcongr]
  obtain ⟨x, hxmem, hxi, _⟩ := activateFirst_exists hemem heid
  exact countP_id_one hne (uniqueIds_activateFirst hu) hxmem hxi

theorem showView_exclusive_core {env : Env} {s : VMState} {v : String}
    (hmem : (v ++ "-view") ∈ viewDomIds) (hne : v ++ "-view" ≠ "")
    (hu : UniqueIds s.dom) (hact : (showView env s v).activated = true) :
    (showView env s v).s.dom.countP (fun e => decide (e.id ∈ viewDomIds) && e.active) = 1 ∧
    ∀ e ∈ (showView env s v).s.dom, e.id ∈ viewDomIds → e.active = true →
      e.id = v ++ "-view" := by
  have hu1 : UniqueIds (deactivateAll s.dom) := uniqueIds_deactivateAll hu
  have hIn : ∀ j ∈ viewDomIds, j ≠ v ++ "-view" → Inactive j (deactivateAll s.dom) :=
    fun j hj _ => deactivateAll_inactive hu j hj
  cases hb : getById (deactivateAll s.dom) (v ++ "-view") with
  | some e =>
    rw [showView_eq_hit hb]
    have hp := onViewActivated_preserves env
      { s with dom := activateFirst (v ++ "-view") (deactivateAll s.dom),
               currentView := v } v
    have key := activate_exclusive hmem hne hu1 hIn hb
    constructor
    · show (onViewActivated env
        { s with dom := activateFirst (v ++ "-view") (deactivateAll s.dom),
                 currentView := v } v).1.dom.countP _ = 1
      rw [hp.1]
      exact key.1
    · show ∀ e2 ∈ (onViewActivated env
        { s with dom := activateFirst (v ++ "-view") (deactivateAll s.dom),
                 currentView := v } v).1.dom, _
      rw [hp.1]
      exact key.2
  | none =>
    cases hr : (loadComponent env { s with dom := deactivateAll s.dom }
        (v ++ "-view")).result with
    | error e0 =>
      rw [showView_eq_miss_err hb hr] at hact
      exact absurd hact (by simp)
    | ok h0 =>
      cases hb2 : getById
          (loadComponent env { s with dom := deactivateAll s.dom } (v ++ "-view")).s.dom
          (v ++ "-view") with
      | none =>
        rw [showView_eq_miss_lost hb hr hb2] at hact
        exact absurd hact (by simp)
      | some e2 =>
        rw [showView_eq_miss_found hb hr hb2]
        have hu2 : UniqueIds
            (loadComponent env { s with dom := deactivateAll s.dom } (v ++ "-view")).s.dom :=
          loadComponent_uniqueIds hu1
        have hIn2 : ∀ j ∈ viewDomIds, j ≠ v ++ "-view" → Inactive j
            (loadComponent env { s with dom := deactivateAll s.dom } (v ++ "-view")).s.dom :=
          fun j hj hjne => loadComponent_recover hb hb2 j hjne (hIn j hj hjne)
        have hp := onViewActivated_preserves env
          { (loadComponent env { s with dom := deactivateAll s.dom } (v ++ "-view")).s with
              dom := activateFirst (v ++ "-view")
                (loadComponent env { s with dom := deactivateAll s.dom } (v ++ "-view")).s.dom,
              currentView := v } v
        have key := activate_exclusive hmem hne hu2 hIn2 hb2
        constructor
        · show (onViewActivated env
            { (loadComponent env { s with dom := deactivateAll s.dom } (v ++ "-view")).s with
                dom := activateFirst (v ++ "-view")
                  (loadComponent env { s with dom := deactivateAll s.dom } (v ++ "-view")).s.dom,
                currentView := v } v).1.dom.countP _ = 1
          rw [hp.1]
          exact key.1
        · show ∀ e3 ∈ (onViewActivated env
            { (loadComponent env { s with dom := deactivateAll s.dom } (v ++ "-view")).s with
                dom := activateFirst (v ++ "-view")
                  (loadComponent env { s with dom := deactivateAll s.dom } (v ++ "-view")).s.dom,
                currentView := v } v).1.dom, _
          rw [hp.1]
          exact key.2

/-- Claim C1: after any successful activation, in which `showView(target)`
finds the mounted target element directly or after the recovery load,
exactly one of the four views carries the `active` marker, namely the
target, and every other view marker was removed in the same call
(assuming at most one mounted element per nonempty identifier, the
invariant the mounter maintains). -/
theorem showView_active_exclusive (env : Env) (s : VMState) (v : String)
    (hv : v ∈ views) (hu : UniqueIds s.dom)
    (hact : (showView env s v).activated = true) :
    (showView env s v).s.dom.countP (fun e => decide (e.id ∈ viewDomIds) && e.active) = 1 ∧
    ∀ e ∈ (showView env s v).s.dom, e.id ∈ viewDomIds → e.active = true →
      e.id = v ++ "-view" := by
  have hv2 : (v ++ "-view") ∈ viewDomIds ∧ v ++ "-view" ≠ "" := by
    simp only [views, List.mem_cons, List.not_mem_nil, or_false] at hv
    rcases hv with h | h | h | h <;> subst h <;> exact ⟨by decide, by decide⟩
  exact showView_exclusive_core hv2.1 hv2.2 hu hact

/-- Claim C1 witness: activating the test view in a state where the
landing view is mounted active and the test view is mounted inactive
leaves exactly the test view active. -/
theorem showView_active_exclusive_witness :
    (showView envOffline stateMounted "test").activated = true ∧
    (showView envOffline stateMounted "test").s.dom.countP
      (fun e => decide (e.id ∈ viewDomIds) && e.active) = 1 ∧
    (∀ e ∈ (showView envOffline stateMounted "test").s.dom,
      e.id ∈ viewDomIds → e.active = true → e.id = "test" ++ "-view") :=
  ⟨by decide,
   (showView_active_exclusive envOffline stateMounted "test" (by decide)
     (by unfold UniqueIds; decide) (by decide)).1,
   (showView_active_exclusive envOffline stateMounted "test" (by decide)
     (by unfold UniqueIds; decide) (by decide)).2⟩
/-- Claim C4: when the target element of an activation is not mounted,
the orchestrator issues exactly one recovery load; if the element is
still missing after it, the activation is abandoned with an error
report, the current-view state keeps its prior value, and the
activation dispatcher is never invoked. -/
theorem showView_miss_abandons (env : Env) (s : VMState) (v : String)
    (hb : getById (deactivateAll s.dom) (v ++ "-view") = none)
    (hb2 : getById (loadComponent env { s with dom := deactivateAll s.dom }
      (v ++ "-view")).s.dom (v ++ "-view") = none) :
    (showView env s v).activated = false ∧
    (showView env s v).s.currentView = s.currentView ∧
    (showView env s v).tr.countP isLoadCall = 1 ∧
    Effect.consoleError ("View " ++ v ++ " not found in DOM") ∈ (showView env s v).tr ∧
    ∀ w, Effect.dispatchCall w ∉ (showView env s v).tr := by
  have hcv := (loadComponent_preserves env { s with dom := deactivateAll s.dom }
    (v ++ "-view")).1
  have hone := loadComponent_tr_one_load env { s with dom := deactivateAll s.dom }
    (v ++ "-view")
  have hnod := loadComponent_tr_no_dispatch env { s with dom := deactivateAll s.dom }
    (v ++ "-view")
  cases hr : (loadComponent env { s with dom := deactivateAll s.dom }
      (v ++ "-view")).result with
  | ok h0 =>
    rw [showView_eq_miss_lost hb hr hb2]
    refine ⟨rfl, hcv, ?_, by simp, ?_⟩
    · rw [List.countP_cons]
      simp [isLoadCall, hone]
    · intro w hw
      rcases List.mem_cons.mp hw with hw | hw
      · exact absurd hw (by simp)
      · exact hnod w hw
  | error e0 =>
    rw [showView_eq_miss_err hb hr]
    refine ⟨rfl, hcv, ?_, by simp, ?_⟩
    · simp [List.countP_cons, List.countP_append, isLoadCall, hone]
    · intro w hw
      rcases List.mem_cons.mp hw with hw | hw
      · exact absurd hw (by simp)
      · rcases List.mem_append.mp hw with hw | hw
        · exact hnod w hw
        · simp at hw

/-- Claim C4 witness: activating the result view while its fragment is
cached but its element is unmounted fails both lookups, so the call is
abandoned: one recovery load, an error report, no dispatch, no state
change. -/
theorem showView_miss_abandons_witness :
    (showView envOffline stateCachedUnmounted "result").activated = false ∧
    (showView envOffline stateCachedUnmounted "result").s.currentView =
      stateCachedUnmounted.currentView ∧
    (showView envOffline stateCachedUnmounted "result").tr.countP isLoadCall = 1 ∧
    Effect.consoleError ("View " ++ "result" ++ " not found in DOM") ∈
      (showView envOffline stateCachedUnmounted "result").tr ∧
    ∀ w, Effect.dispatchCall w ∉ (showView envOffline stateCachedUnmounted "result").tr :=
  showView_miss_abandons envOffline stateCachedUnmounted "result" (by decide) (by decide)
/-- Claim C10 counterexample: activating the absent result view in a
state where the test view is mounted, against an environment whose
result-view fragment parses to a pre-activated element with id
test-view, abandons the activation (the retry fails), yet leaves the
test view carrying the active marker: the claim that no view stays
active after a doubly failed activation is false. -/
theorem showView_miss_foreign_active_cex :
    (showView envActiveFrag stateMounted "result").activated = false ∧
    (showView envActiveFrag stateMounted "result").s.currentView = "landing" ∧
    Elem.mk "test-view" true ∈ (showView envActiveFrag stateMounted "result").s.dom := by
  refine ⟨by decide, by decide, by decide⟩

/-- Claim C10 (amended): when an activation misses and its recovery
also fails to produce the target element, and the recovery does not
mount a pre-activated element (no fetched fragment parses to an element
already carrying the active class), then afterwards no view carries the
active marker even though the current-view state still names the
previously active view. -/
theorem showView_miss_no_active_view (env : Env) (s : VMState) (v : String)
    (hu : UniqueIds s.dom)
    (hpe : ∀ h pe, env.parse h = some pe → pe.active = false)
    (hb : getById (deactivateAll s.dom) (v ++ "-view") = none)
    (hb2 : getById (loadComponent env { s with dom := deactivateAll s.dom }
      (v ++ "-view")).s.dom (v ++ "-view") = none) :
    (∀ e ∈ (showView env s v).s.dom, e.id ∈ viewDomIds → e.active = false) ∧
    (showView env s v).s.currentView = s.currentView ∧
    (showView env s v).activated = false := by
  have hcv := (loadComponent_preserves env { s with dom := deactivateAll s.dom }
    (v ++ "-view")).1
  have hall : ∀ e ∈ (loadComponent env { s with dom := deactivateAll s.dom }
      (v ++ "-view")).s.dom, e.id ∈ viewDomIds → e.active = false := by
    intro e he hv2
    exact loadComponent_inactive_of_parse hpe
      (deactivateAll_inactive hu e.id hv2) e he rfl
  cases hr : (loadComponent env { s with dom := deactivateAll s.dom }
      (v ++ "-view")).result with
  | ok h0 =>
    rw [showView_eq_miss_lost hb hr hb2]
    exact ⟨hall, hcv, rfl⟩
  | error e0 =>
    rw [showView_eq_miss_err hb hr]
    exact ⟨hall, hcv, rfl⟩

/-- Claim C10 (amended) witness: the doubly failed activation of the
result view from a cached-but-unmounted state leaves every view
unmarked while the current view still reads landing. -/
theorem showView_miss_no_active_view_witness :
    (∀ e ∈ (showView envOffline stateCachedUnmounted "result").s.dom,
      e.id ∈ viewDomIds → e.active = false) ∧
    (showView envOffline stateCachedUnmounted "result").s.currentView = "landing" ∧
    (showView envOffline stateCachedUnmounted "result").activated = false :=
  showView_miss_no_active_view envOffline stateCachedUnmounted "result"
    (by unfold UniqueIds; decide)
    (fun h pe hc => by simp [envOffline] at hc)
    (by decide) (by decide)
/-- Claim C2 counterexample: for a name whose fetch fails (here
landing-view against an offline environment), two consecutive loads
perform two network fetches, not one: the failed first load is not
cached, so the second load fetches again. -/
theorem load_twice_two_fetches_cex :
    envOffline.fetch "landing-view" = none ∧
    ((loadComponent envOffline stateEmpty "landing-view").tr ++
      (loadComponent envOffline
        (loadComponent envOffline stateEmpty "landing-view").s "landing-view").tr).countP
      isFetchCall = 2 := by
  exact ⟨rfl, by decide⟩

/-- Claim C2 (amended): for a name not nonemptily cached whose fetch
succeeds with nonempty markup, the first load performs exactly one
network fetch and returns the markup; the second load performs no I/O
at all, returns the identical markup, and leaves the state unchanged.
In general, a load of any nonemptily cached name returns the cached
markup with no I/O. (As cached, a failed fetch populates nothing, so
each repeated failing load re-fetches, and an empty cached string is
treated as uncached by the truthiness test.) -/
theorem load_idempotent_on_success (env : Env) (s : VMState) (n h : String)
    (hm : cacheHit s.cache n = none) (hf : env.fetch n = some h) (hne : h ≠ "") :
    (loadComponent env s n).tr.countP isFetchCall = 1 ∧
    exOk (loadComponent env s n).result = some h ∧
    loadComponent env (loadComponent env s n).s n =
      ⟨Except.ok h, (loadComponent env s n).s, [Effect.loadCall n]⟩ ∧
    ∀ s2 h2, cacheHit s2.cache n = some h2 →
      loadComponent env s2 n = ⟨Except.ok h2, s2, [Effect.loadCall n]⟩ := by
  have hbranch : (loadComponent env s n).s.cache = (n, h) :: s.cache ∧
      (loadComponent env s n).tr = [Effect.loadCall n, Effect.fetchCall n] ∧
      (loadComponent env s n).result = Except.ok h := by
    cases hv : (containsView n || decide (n = "review-panel")) with
    | false => rw [loadComponent_nomount hm hf hv]; exact ⟨rfl, rfl, rfl⟩
    | true =>
      cases hp : env.parse h with
      | none => rw [loadComponent_parsefail hm hf hv hp]; exact ⟨rfl, rfl, rfl⟩
      | some pe => rw [loadComponent_mount hm hf hv hp]; exact ⟨rfl, rfl, rfl⟩
  refine ⟨?_, ?_, ?_, fun s2 h2 hc => loadComponent_hit hc⟩
  · rw [hbranch.2.1]; rfl
  · rw [hbranch.2.2]; rfl
  · have hc2 : cacheHit (loadComponent env s n).s.cache n = some h := by
      rw [hbranch.1]
      simp [cacheHit, cacheGet, hne]
    exact loadComponent_hit hc2

/-- Claim C2 (amended) witness: loading landing-view twice against an
environment whose fetch succeeds performs one fetch then none, with
identical markup both times. -/
theorem load_idempotent_on_success_witness :
    (loadComponent envHtmlOk stateEmpty "landing-view").tr.countP isFetchCall = 1 ∧
    exOk (loadComponent envHtmlOk stateEmpty "landing-view").result = some "<div></div>" ∧
    loadComponent envHtmlOk (loadComponent envHtmlOk stateEmpty "landing-view").s
        "landing-view" =
      ⟨Except.ok "<div></div>", (loadComponent envHtmlOk stateEmpty "landing-view").s,
       [Effect.loadCall "landing-view"]⟩ ∧
    ∀ s2 h2, cacheHit s2.cache "landing-view" = some h2 →
      loadComponent envHtmlOk s2 "landing-view" =
        ⟨Except.ok h2, s2, [Effect.loadCall "landing-view"]⟩ :=
  load_idempotent_on_success envHtmlOk stateEmpty "landing-view" "<div></div>"
    (by decide) (by decide) (by decide)
/-- Claim C3: for every view name whose fetch fails and which is not
cached, the load still yields a mounted element identified by the view
component name via the fallback fragment, and activating that view then
succeeds. (The fallback generator itself is absent from the source and
is modelled from the spec contract.) -/
theorem load_fallback_mounts_view (env : Env) (s : VMState) (v : String)
    (hv : v ∈ views)
    (hm : cacheHit s.cache (v ++ "-view") = none)
    (hf : env.fetch (v ++ "-view") = none) :
    exOk (loadComponent env s (v ++ "-view")).result =
      some (fallbackHtml (v ++ "-view")) ∧
    getById (loadComponent env s (v ++ "-view")).s.dom (v ++ "-view") =
      some (Elem.mk (v ++ "-view") false) ∧
    (showView env s v).activated = true := by
  have hfacts : containsView (v ++ "-view") = true ∧ (v ++ "-view") ≠ "" := by
    simp only [views, List.mem_cons, List.not_mem_nil, or_false] at hv
    rcases hv with h | h | h | h <;> subst h <;> exact ⟨by decide, by decide⟩
  obtain ⟨hcv, hne⟩ := hfacts
  have hload := @loadComponent_fail_view env s (v ++ "-view") hm hf hcv
  refine ⟨by rw [hload]; rfl, ?_, ?_⟩
  · rw [hload]
    exact getById_replaceOrAppend_self hne
  · cases hb : getById (deactivateAll s.dom) (v ++ "-view") with
    | some e => rw [showView_eq_hit hb]
    | none =>
      have hload1 :=
        @loadComponent_fail_view env { s with dom := deactivateAll s.dom }
          (v ++ "-view") hm hf hcv
      have hok : (loadComponent env { s with dom := deactivateAll s.dom }
          (v ++ "-view")).result = Except.ok (fallbackHtml (v ++ "-view")) := by
        rw [hload1]
      have hfound : getById (loadComponent env { s with dom := deactivateAll s.dom }
          (v ++ "-view")).s.dom (v ++ "-view") = some (Elem.mk (v ++ "-view") false) := by
        rw [hload1]
        exact getById_replaceOrAppend_self hne
      rw [showView_eq_miss_found hb hok hfound]

/-- Claim C3 witness: with an offline environment and nothing cached,
loading review-answers-view yields the mounted fallback element and the
review-answers activation succeeds. -/
theorem load_fallback_mounts_view_witness :
    exOk (loadComponent envOffline stateEmpty "review-answers-view").result =
      some (fallbackHtml "review-answers-view") ∧
    getById (loadComponent envOffline stateEmpty "review-answers-view").s.dom
      "review-answers-view" = some (Elem.mk "review-answers-view" false) ∧
    (showView envOffline stateEmpty "review-answers").activated = true :=
  load_fallback_mounts_view envOffline stateEmpty "review-answers"
    (by decide) (by decide) (by decide)
/-- Claim C5: the activation dispatcher performs exactly the
collaborator effect mapped to the activated view: for test only the
question-display refresh of the test collaborator (when present with
that method), for result only its results computation, for
review-answers its review initialization exactly once when that method
exists and otherwise exactly the core review manager initialization,
and for landing no collaborator effect at all. -/
theorem onViewActivated_dispatch (env : Env) (s : VMState) :
    (onViewActivated env s "landing").2.filter isCollabFx = [] ∧
    (∀ tm, s.testManager = some tm →
      (tm.hasUpdateQuestionDisplay = true →
        (onViewActivated env s "test").2.filter isCollabFx =
          [Effect.updateQuestionDisplay]) ∧
      (tm.hasCalculateResults = true →
        (onViewActivated env s "result").2.filter isCollabFx =
          [Effect.calculateResults]) ∧
      (tm.hasInitReview = true →
        (onViewActivated env s "review-answers").2.filter isCollabFx =
          [Effect.tmInitReview]) ∧
      (tm.hasInitReview = false →
        onViewActivated env s "review-answers" =
          ((initReviewManager env s).1,
           Effect.dispatchCall "review-answers" :: (initReviewManager env s).2))) ∧
    (s.testManager = none →
      onViewActivated env s "review-answers" =
        ((initReviewManager env s).1,
         Effect.dispatchCall "review-answers" :: (initReviewManager env s).2)) := by
  refine ⟨?_, ?_, ?_⟩
  · simp [onViewActivated, isCollabFx]
  · intro tm htm
    refine ⟨?_, ?_, ?_, ?_⟩
    · intro hupd
      simp [onViewActivated, htm, hupd, isCollabFx]
    · intro hcalc
      simp [onViewActivated, htm, hcalc, isCollabFx]
    · intro hir
      simp [onViewActivated, htm, hir, isCollabFx]
    · intro hir
      simp [onViewActivated, htm, hir]
  · intro htm
    simp [onViewActivated, htm]

/-- Claim C5 witness: with a test collaborator exposing all three
methods, each view activation performs exactly its mapped effect, and
with no test collaborator the review-answers activation falls back to
the core review manager initialization. -/
theorem onViewActivated_dispatch_witness :
    (onViewActivated envOffline stateWithTM "landing").2.filter isCollabFx = [] ∧
    (onViewActivated envOffline stateWithTM "test").2.filter isCollabFx =
      [Effect.updateQuestionDisplay] ∧
    (onViewActivated envOffline stateWithTM "result").2.filter isCollabFx =
      [Effect.calculateResults] ∧
    (onViewActivated envOffline stateWithTM "review-answers").2.filter isCollabFx =
      [Effect.tmInitReview] ∧
    onViewActivated envOffline stateEmpty "review-answers" =
      ((initReviewManager envOffline stateEmpty).1,
       Effect.dispatchCall "review-answers" :: (initReviewManager envOffline stateEmpty).2) := by
  have h1 := onViewActivated_dispatch envOffline stateWithTM
  have h2 := onViewActivated_dispatch envOffline stateEmpty
  exact ⟨h1.1, (h1.2.1 ⟨true, true, true⟩ rfl).1 rfl, (h1.2.1 ⟨true, true, true⟩ rfl).2.1 rfl,
    (h1.2.1 ⟨true, true, true⟩ rfl).2.2.1 rfl, h2.2.2 rfl⟩
/-- Claim C6 counterexample: in a sidebar list whose item at position 0
contains a nested list with its own list item, a click inside item 0
(on the inner list item) resolves to the nested item, whose position
among the direct children of the list is -1; the handler then invokes
the collaborators with -1 instead of 0, so the claim that a click
inside the item at position k always delivers k is false. -/
theorem sidebar_click_nested_li_cex :
    (sidebarClick true true listNested [0, 0, 0] false).1 =
      [Effect.setReviewCurrentQuestion (-1), Effect.loadReviewQuestion (-1),
       Effect.closeSidebar] ∧
    Effect.setReviewCurrentQuestion 0 ∉ (sidebarClick true true listNested [0, 0, 0] false).1 := by
  exact ⟨by decide, by decide⟩

/-- Claim C6 (amended): with the state collaborator and the review
manager handle present, a click whose nearest self-or-ancestor list
item is the direct child at position k invokes
setReviewCurrentQuestion(k), loadReviewQuestion(k) and closeSidebar()
with exactly that k and does not throw; a click that does not resolve
to any list item invokes none of them. Clicks whose nearest list item
is not a direct child (a nested or outer list item) are delivered with
index -1 instead. -/
theorem sidebar_click_direct_item (root : Node) (path : List Nat) (k : Nat)
    (hasOuterLi : Bool)
    (hres : closestLi root path = some [k]) :
    sidebarClick true true root path hasOuterLi =
      ([Effect.setReviewCurrentQuestion (k : Int), Effect.loadReviewQuestion (k : Int),
        Effect.closeSidebar], false) ∧
    ∀ root2 path2, closestLi root2 path2 = none →
      sidebarClick true true root2 path2 false = ([], false) := by
  constructor
  · unfold sidebarClick
    rw [hres]
    rfl
  · intro root2 path2 hnone
    unfold sidebarClick
    rw [hnone]
    rfl

/-- Claim C6 (amended) witness: clicking the second item of a two-item
list delivers index 1 to all three collaborator calls, and a click on
the list background invokes nothing. -/
theorem sidebar_click_direct_item_witness :
    sidebarClick true true listTwoItems [1] false =
      ([Effect.setReviewCurrentQuestion 1, Effect.loadReviewQuestion 1,
        Effect.closeSidebar], false) ∧
    ∀ root2 path2, closestLi root2 path2 = none →
      sidebarClick true true root2 path2 false = ([], false) :=
  sidebar_click_direct_item listTwoItems [1] 1 false (by decide)

/-- Claim C9 (code bug): an exception does escape a bound event
handler. With the state collaborator present but the review manager
handle null (for example when the question collaborator is absent, so
initializeReviewManager skipped handle construction), a click on a list
item performs the state update and then throws from the unguarded
this.reviewManager.closeSidebar() call, even though the immediately
preceding loadReviewQuestion call is guarded by a null check on the
same field: the thrown TypeError leaves the handler as an unhandled
fault. -/
theorem sidebar_click_throws_without_handle :
    sidebarClick true false listTwoItems [0] false =
      ([Effect.setReviewCurrentQuestion 0], true) := by decide
theorem loadAllComponents_ok (env : Env) (s : VMState) :
    (loadAllComponents env s).result = Except.ok () := by
  obtain ⟨a1, e1⟩ := @loadComponent_ok_of_containsView env s "landing-view" (by decide)
  obtain ⟨a2, e2⟩ := @loadComponent_ok_of_containsView env
    (loadComponent env s "landing-view").s "test-view" (by decide)
  obtain ⟨a3, e3⟩ := @loadComponent_ok_of_containsView env
    (loadComponent env (loadComponent env s "landing-view").s "test-view").s
    "result-view" (by decide)
  obtain ⟨a4, e4⟩ := @loadComponent_ok_of_containsView env
    (loadComponent env (loadComponent env (loadComponent env s "landing-view").s
      "test-view").s "result-view").s
    "review-answers-view" (by decide)
  obtain ⟨a5, e5⟩ := @loadComponent_ok_of_containsView env
    (loadComponent env (loadComponent env (loadComponent env (loadComponent env s
      "landing-view").s "test-view").s "result-view").s "review-answers-view").s
    "review-panel" (by decide)
  unfold loadAllComponents
  simp only [e1, e2, e3, e4, e5]

/-- Claim C7 counterexample: with an environment where exactly the
review-panel fetch fails, the bootstrap batch load still resolves
(review-panel contains the substring view, so even its failure takes
the fallback path instead of rejecting) and init proceeds to activate
the landing view; the claim that any failing fetch in the batch fails
the whole bootstrap and abandons initialization is false. -/
theorem bootstrap_panel_failure_recovers_cex :
    envPanelFail.fetch "review-panel" = none ∧
    batchOk (loadAllComponents envPanelFail stateEmpty) = true ∧
    (init envPanelFail stateEmpty).1.currentView = "landing" ∧
    Effect.dispatchCall "landing" ∈ (init envPanelFail stateEmpty).2 := by
  exact ⟨rfl, by decide, by decide, by decide⟩

/-- Claim C7 (amended): no fetch failure in the bootstrap batch ever
fails the bootstrap: every one of the five component names contains the
substring view (including review-panel), so every failed fetch is
recovered through the fallback view and each load resolves; init
therefore always proceeds past the batch into activating the landing
view rather than abandoning initialization, and nothing propagates to
the caller of init. -/
theorem bootstrap_never_fails (env : Env) (s : VMState) :
    (loadAllComponents env s).result = Except.ok () ∧
    init env s =
      ((showView env (loadAllComponents env s).s "landing").s,
       (loadAllComponents env s).tr ++
         (showView env (loadAllComponents env s).s "landing").tr) := by
  refine ⟨loadAllComponents_ok env s, ?_⟩
  unfold init
  simp only [loadAllComponents_ok env s]
/-- Claim C8 counterexample: when the injected state collaborator is
absent and the window-scoped app object is undefined, review manager
initialization is skipped but not silently: the unguarded
window.app.stateManager access throws and the catch logs an error. -/
theorem initReviewManager_not_silent_cex :
    initReviewManager envOffline stateNoSM =
      (stateNoSM, [Effect.consoleError "Error initializing review manager"]) := by
  decide

/-- Claim C8 (amended): review manager initialization requires both the
state and the question collaborator; whenever either resolves to null
(after the window-scoped fallback), initialization is skipped with no
handle constructed, no handle method called and no state change, and
this is never fatal. The skip is silent whenever the window-scoped app
object exists; when it is undefined and a collaborator is missing, the
internal throw is caught and logged instead (still no handle, no call,
not fatal). -/
theorem initReviewManager_skips (env : Env) (s : VMState) (a : WindowApp)
    (happ : env.windowApp = some a)
    (habs : (s.stateManager = false ∧ a.stateManager = false) ∨
      (s.questionManager = false ∧ a.questionManager = false)) :
    initReviewManager env s = (s, []) := by
  unfold initReviewManager
  rcases habs with ⟨h1, h2⟩ | ⟨h1, h2⟩
  · by_cases hq : s.questionManager = true <;> simp [happ, h1, h2, hq]
  · by_cases hsm : s.stateManager = true <;> simp [happ, h1, h2, hsm]

/-- Claim C8 (amended) witness: with the state collaborator absent both
in the orchestrator and on the existing window-scoped app object,
initialization returns silently with no effect. -/
theorem initReviewManager_skips_witness :
    initReviewManager envAppOnly stateNoSM = (stateNoSM, []) :=
  initReviewManager_skips envAppOnly stateNoSM ⟨false, true⟩ rfl
    (Or.inl ⟨rfl, rfl⟩)
